import Mathlib

/-!
Verification development for the BACnet-Stack command-line apps
`apps/whois/main.c` and `apps/iam/main.c`.

The C sources are shallowly embedded:
* the `whois` address table (a singly linked list with head `first` and
  tail `last`) becomes a `List AddressEntry`, head = first entry;
* `address_table_add` (whois/main.c lines 79-108) and its scan loop become
  `address_table_add` / `address_table_scan`;
* `print_address_cache` (lines 234-284) becomes a function producing the
  printed rows and the two counters;
* command-line parsing, destination resolution, and the discovery loops of
  both programs are embedded further below.

External collaborators (libc, the BACnet protocol library, the datalink
layer) are either taken as function parameters of the embedding or are
modelled from the spec where a claim depends on them; each such definition
carries a doc comment saying so.
-/

namespace BacApp

/-- A BACnet address (`BACNET_ADDRESS`): network number `net`, device MAC
`mac` (the `mac[]` bytes up to `mac_len`, folded into one list), and the
sub-address on the destination network `adr` (the `adr[]` bytes up to
`len`). -/
structure BacAddr where
  net : Nat
  mac : List Nat
  adr : List Nat
 deriving DecidableEq

/-- Modelled from the spec: `bacnet_address_same` lives in the protocol
library, not under `src/`; the spec says the match key within a duplicate
group is "equality of sourceAddress (network number + mac + sub-address)",
so two addresses are the same exactly when all three components agree. -/
def bacnet_address_same (a b : BacAddr) : Bool :=
  decide (a = b)

/-- One `struct address_entry` of whois/main.c (lines 47-53).  `flags`
models the `BAC_ADDRESS_MULT` bit of the `Flags` byte; it is the only bit
the program ever sets. -/
structure AddressEntry where
  flags : Bool
  device_id : Nat
  max_apdu : Nat
  address : BacAddr
 deriving DecidableEq

/-- The scan loop of `address_table_add` (whois/main.c lines 85-107).
The first argument of the recursion is the local variable `flags`
(accumulates `BAC_ADDRESS_MULT` once a same-id entry is seen); walking off
the end of the list corresponds to `alloc_address_entry` appending the new
entry at the tail with the accumulated flags.  An exact match returns
early, leaving the remainder of the list untouched (mutations already made
to earlier entries persist, as they do on the C linked list). -/
def address_table_scan (device_id max_apdu : Nat) (src : BacAddr) :
    Bool → List AddressEntry → List AddressEntry
  | flags, [] => [⟨flags, device_id, max_apdu, src⟩]
  | flags, e :: rest =>
    if e.device_id = device_id then
      if bacnet_address_same e.address src then
        e :: rest
      else
        {e with flags := true} ::
          address_table_scan device_id max_apdu src true rest
    else
      e :: address_table_scan device_id max_apdu src flags rest

/-- `address_table_add` (whois/main.c lines 79-108) acting on the embedded
table. -/
def address_table_add (table : List AddressEntry)
    (device_id max_apdu : Nat) (src : BacAddr) : List AddressEntry :=
  address_table_scan device_id max_apdu src false table

/-- Mark an entry duplicate when its id matches (the `pMatch->Flags |=
BAC_ADDRESS_MULT` effect of the scan, expressed entrywise). -/
def flag_same_id (device_id : Nat) (e : AddressEntry) : AddressEntry :=
  if e.device_id = device_id then {e with flags := true} else e

/-- One call to `record` / `address_table_add` (arguments of one I-Am
response fed to the collector). -/
structure RecCall where
  device_id : Nat
  max_apdu : Nat
  src : BacAddr
 deriving DecidableEq

/-- The roster obtained by a sequence of `address_table_add` calls starting
from the empty table (the only way the program ever builds
`Address_Table`). -/
def rosterOf (calls : List RecCall) : List AddressEntry :=
  calls.foldl (fun t c => address_table_add t c.device_id c.max_apdu c.src) []

/-- One printed row of `print_address_cache` (whois/main.c lines 249-278):
the duplicate marker, device id, MAC, SNET, SADR (with the `local_sadr`
quirk when `net = 0`), and max-APDU, in print order. -/
structure RosterRow where
  dupMark : Bool
  device_id : Nat
  mac : List Nat
  net : Nat
  sadr : List Nat
  max_apdu : Nat
 deriving DecidableEq

/-- The row printed for one entry. -/
def rowOf (e : AddressEntry) : RosterRow :=
  ⟨e.flags, e.device_id, e.address.mac, e.address.net,
    if e.address.net ≠ 0 then e.address.adr else [0], e.max_apdu⟩

/-- What `print_address_cache` emits: the rows in traversal order, the
`total_addresses` counter and the `dup_addresses` counter of the summary. -/
structure CacheReport where
  rows : List RosterRow
  total : Nat
  dups : Nat
 deriving DecidableEq

/-- The traversal loop of `print_address_cache` (lines 249-278), carrying
the rows emitted so far (reversed) and the two counters. -/
def print_address_cache_go :
    List AddressEntry → List RosterRow → Nat → Nat → CacheReport
  | [], rows, total, dups => ⟨rows.reverse, total, dups⟩
  | e :: rest, rows, total, dups =>
    print_address_cache_go rest (rowOf e :: rows) (total + 1)
      (if e.flags then dups + 1 else dups)

/-- `print_address_cache` (whois/main.c lines 234-284) on the embedded
table. -/
def print_address_cache (t : List AddressEntry) : CacheReport :=
  print_address_cache_go t [] 0 0

/-! ### Helper lemmas about the address table -/

/-- Two entries sharing a device id are both flagged duplicate.  This is
the invariant the table maintains across `address_table_add` calls. -/
def sameIdFlagged (a b : AddressEntry) : Prop :=
  a.device_id = b.device_id → a.flags = true ∧ b.flags = true

theorem flag_same_id_device_id (id : Nat) (e : AddressEntry) :
    (flag_same_id id e).device_id = e.device_id := by
  unfold flag_same_id
  split <;> rfl

theorem flag_same_id_of_eq {id : Nat} {e : AddressEntry}
    (h : e.device_id = id) : (flag_same_id id e).flags = true := by
  unfold flag_same_id
  simp [h]

theorem flag_same_id_of_flagged {id : Nat} {e : AddressEntry}
    (h : e.flags = true) : flag_same_id id e = e := by
  unfold flag_same_id
  cases e
  simp_all

/-- Characterisation of the scan when no exact `(device_id, src)` pair is
present: every same-id entry is flagged and the fresh entry is appended at
the tail, itself flagged exactly when some same-id entry exists. -/
theorem address_table_scan_no_exact (id apdu : Nat) (src : BacAddr) :
    ∀ (t : List AddressEntry) (f : Bool),
    (∀ e ∈ t, ¬(e.device_id = id ∧ e.address = src)) →
    address_table_scan id apdu src f t =
      t.map (flag_same_id id) ++
        [⟨f || t.any (fun e => decide (e.device_id = id)), id, apdu, src⟩] := by
  intro t
  induction t with
  | nil => intro f _; simp [address_table_scan]
  | cons e rest ih =>
    intro f h
    have he := h e (by simp)
    by_cases hid : e.device_id = id
    · have haddr : ¬(e.address = src) := fun hc => he ⟨hid, hc⟩
      have hsame : bacnet_address_same e.address src = false := by
        simp [bacnet_address_same, haddr]
      simp only [address_table_scan, hid, if_true, hsame, Bool.false_eq_true,
        if_false]
      rw [ih true (fun x hx => h x (by simp [hx]))]
      simp [flag_same_id, hid]
    · simp only [address_table_scan, hid, if_false]
      rw [ih f (fun x hx => h x (by simp [hx]))]
      simp [flag_same_id, hid]

/-- When the exact `(device_id, src)` pair is already present and the
duplicate invariant holds, the scan returns the table unchanged (the early
return of lines 90-93; flag writes on earlier same-id entries are no-ops
because those flags are already set). -/
theorem address_table_scan_exact (id apdu : Nat) (src : BacAddr) :
    ∀ (t : List AddressEntry), t.Pairwise sameIdFlagged →
    (∃ e ∈ t, e.device_id = id ∧ e.address = src) →
    ∀ f, address_table_scan id apdu src f t = t := by
  intro t
  induction t with
  | nil => intro _ h; exact absurd h (by simp)
  | cons e rest ih =>
    intro hp hex f
    rw [List.pairwise_cons] at hp
    by_cases hid : e.device_id = id
    · by_cases haddr : e.address = src
      · have hsame : bacnet_address_same e.address src = true := by
          simp [bacnet_address_same, haddr]
        simp [address_table_scan, hid, hsame]
      · -- the exact match lies in `rest`
        obtain ⟨m, hm, hmid, hmaddr⟩ := hex
        rcases List.mem_cons.mp hm with hme | hmrest
        · exact absurd (hme ▸ hmaddr) haddr
        · have hrel := hp.1 m hmrest (by rw [hid, hmid])
          have hsame : bacnet_address_same e.address src = false := by
            simp [bacnet_address_same, haddr]
          simp only [address_table_scan, hid, if_true, hsame,
            Bool.false_eq_true, if_false]
          rw [ih hp.2 ⟨m, hmrest, hmid, hmaddr⟩ true]
          have hfl : e.flags = true := hrel.1
          cases e
          simp_all
    · obtain ⟨m, hm, hmid, hmaddr⟩ := hex
      rcases List.mem_cons.mp hm with hme | hmrest
      · exact absurd (hme ▸ hmid) hid
      · simp only [address_table_scan, hid, if_false]
        rw [ih hp.2 ⟨m, hmrest, hmid, hmaddr⟩ f]

/-- `address_table_add` preserves the duplicate-group invariant. -/
theorem address_table_add_pairwise {t : List AddressEntry}
    (hp : t.Pairwise sameIdFlagged) (id apdu : Nat) (src : BacAddr) :
    (address_table_add t id apdu src).Pairwise sameIdFlagged := by
  by_cases hex : ∃ e ∈ t, e.device_id = id ∧ e.address = src
  · rw [address_table_add, address_table_scan_exact id apdu src t hp hex]
    exact hp
  · push_neg at hex
    rw [address_table_add, address_table_scan_no_exact id apdu src t false
      (by intro e he hc; exact hex e he hc.1 hc.2)]
    apply List.pairwise_append.mpr
    refine ⟨?_, by simp, ?_⟩
    · refine List.Pairwise.map (flag_same_id id) ?_ hp
      intro a b hab
      intro hdev
      rw [flag_same_id_device_id, flag_same_id_device_id] at hdev
      by_cases ha : a.device_id = id
      · exact ⟨flag_same_id_of_eq ha, flag_same_id_of_eq (hdev ▸ ha)⟩
      · have hb : ¬(b.device_id = id) := fun hbid => ha (hdev ▸ hbid)
        have := hab hdev
        constructor
        · rw [flag_same_id_of_flagged this.1]; exact this.1
        · rw [flag_same_id_of_flagged this.2]; exact this.2
    · intro a ha b hb
      rw [List.mem_singleton] at hb
      obtain ⟨a0, ha0, rfl⟩ := List.mem_map.mp ha
      intro hdev
      rw [flag_same_id_device_id] at hdev
      have hb' : b.device_id = id := by rw [hb]
      have ha0id : a0.device_id = id := by
        rw [hdev, hb']
      refine ⟨flag_same_id_of_eq ha0id, ?_⟩
      rw [hb]
      simp only [Bool.false_or]
      exact List.any_eq_true.mpr ⟨a0, ha0, by simp [ha0id]⟩

/-- Every roster the program can build satisfies the duplicate-group
invariant. -/
theorem rosterOf_pairwise (calls : List RecCall) :
    (rosterOf calls).Pairwise sameIdFlagged := by
  have hgen : ∀ (cs : List RecCall) (t : List AddressEntry),
      t.Pairwise sameIdFlagged →
      (cs.foldl
        (fun t c => address_table_add t c.device_id c.max_apdu c.src)
        t).Pairwise sameIdFlagged := by
    intro cs
    induction cs with
    | nil => intro t ht; exact ht
    | cons c rest ih =>
      intro t ht
      exact ih _ (address_table_add_pairwise ht c.device_id c.max_apdu c.src)
  exact hgen calls [] (by simp)

/-! ### Destination resolution (whois/main.c lines 497-545, iam/main.c
lines 282-329) -/

/-- The destination `BACNET_ADDRESS` as far as the resolver writes it:
network number, device MAC (`mac[]`/`mac_len`) and sub-address
(`adr[]`/`len`), byte arrays folded into lists. -/
structure Dest where
  net : Nat
  mac : List Nat
  adr : List Nat
 deriving DecidableEq

def BACNET_BROADCAST_NETWORK : Nat := 65535

/-- Modelled from the spec: `datalink_get_broadcast_address` belongs to the
datalink layer, not under `src/`.  Spec section 4.1 case 4 calls its result
the "full broadcast" default, and section 8 property 1 spells it out as
"network number = broadcast, mac/sub-address unset". -/
def broadcastDest : Dest :=
  ⟨BACNET_BROADCAST_NETWORK, [], []⟩

/-- The three-way destination construction both programs share
(whois/main.c lines 503-544, iam/main.c lines 284-328), entered once a
specific target was requested.  `dnet` is the parsed `--dnet` value (a C
`long`, `-1` when absent). -/
def destFromHints (mac adr : List Nat) (dnet : Int) : Dest :=
  if adr ≠ [] ∧ mac ≠ [] then
    ⟨if 0 ≤ dnet ∧ dnet ≤ (BACNET_BROADCAST_NETWORK : Int) then dnet.toNat
      else BACNET_BROADCAST_NETWORK, mac, adr⟩
  else if mac ≠ [] then
    ⟨if 0 ≤ dnet ∧ dnet ≤ (BACNET_BROADCAST_NETWORK : Int) then dnet.toNat
      else 0, mac, []⟩
  else
    ⟨if 0 ≤ dnet ∧ dnet ≤ (BACNET_BROADCAST_NETWORK : Int) then dnet.toNat
      else BACNET_BROADCAST_NETWORK, [], []⟩

/-- whois/main.c lines 497-545: global broadcast takes the datalink
broadcast address, otherwise the shared construction runs. -/
def whoisResolve (globalBroadcast : Bool) (mac adr : List Nat)
    (dnet : Int) : Dest :=
  if globalBroadcast then broadcastDest else destFromHints mac adr dnet

/-- iam/main.c lines 282-329: without a specific address the destination
stays zero-initialised (`BACNET_ADDRESS dest = { 0 }`, line 153). -/
def iamResolve (specificAddress : Bool) (mac adr : List Nat)
    (dnet : Int) : Dest :=
  if specificAddress then destFromHints mac adr dnet else ⟨0, [], []⟩

/-- The value `global_broadcast` holds after parsing when each hint was
given at most once: it is cleared by a parsed `--mac`, by a parsed
`--dadr`, and by an in-range `--dnet` (whois/main.c lines 417-447). -/
def whoisGlobalBroadcast (mac adr : List Nat) (dnet : Int) : Bool :=
  decide (mac = [] ∧ adr = [] ∧
    ¬(0 ≤ dnet ∧ dnet ≤ (BACNET_BROADCAST_NETWORK : Int)))

/-- The resolution policy exactly as the spec words it (section 4.1): four
cases tried in priority order, an out-of-range remote network number
treated as absent. -/
def resolveSpec (mac adr : List Nat) (dnet : Int) : Dest :=
  if mac ≠ [] ∧ adr ≠ [] then
    ⟨if 0 ≤ dnet ∧ dnet ≤ (BACNET_BROADCAST_NETWORK : Int) then dnet.toNat
      else BACNET_BROADCAST_NETWORK, mac, adr⟩
  else if mac ≠ [] then
    ⟨if 0 ≤ dnet ∧ dnet ≤ (BACNET_BROADCAST_NETWORK : Int) then dnet.toNat
      else 0, mac, []⟩
  else if 0 ≤ dnet ∧ dnet ≤ (BACNET_BROADCAST_NETWORK : Int) then
    ⟨dnet.toNat, [], []⟩
  else
    ⟨BACNET_BROADCAST_NETWORK, [], []⟩

/-! ### Command-line parsing (whois/main.c lines 399-496, iam/main.c lines
165-278)

`bacnet_address_mac_from_ascii` and `strtol` are external (protocol
library, libc); the parsers take them as parameters `macF` (returning
`none` on a parse failure, in which case the C code leaves the MAC and the
broadcast flag untouched) and `stl`. -/

/-- `strtol` assigned to an `int32_t` variable: wrap into the signed 32-bit
range. -/
def toInt32 (x : Int) : Int :=
  (x + 2 ^ 31) % 2 ^ 32 - 2 ^ 31

/-- The whois configuration accumulated by the argument loop. -/
structure WhoisCfg where
  instMin : Int
  instMax : Int
  mac : List Nat
  adr : List Nat
  dnet : Int
  repeatF : Bool
  retry : Nat
  timeoutMs : Int
  delayMs : Int
  globalBroadcast : Bool
 deriving DecidableEq

/-- Initial values of the whois locals (lines 377-390). -/
def whoisCfg0 : WhoisCfg :=
  ⟨-1, -1, [], [], -1, false, 0, 0, 100, true⟩

/-- How the whois argument loop leaves the program. -/
inductive WhoisParse where
  | helpExit
  | versionExit
  | usageExit
  | ok (cfg : WhoisCfg)
 deriving DecidableEq

/-- The whois options that consume the following argument as their value. -/
def whoisTakesValue (a : String) : Bool :=
  decide (a = "--mac" ∨ a = "--dnet" ∨ a = "--dadr" ∨ a = "--retry" ∨
    a = "--timeout" ∨ a = "--delay")

/-- Effect of one whois value-taking option (lines 417-476).  `--retry`
clamps negatives to zero; `--dnet` clears the broadcast flag only when in
range; a MAC that fails to parse changes nothing. -/
def whoisApplyOption (macF : String → Option (List Nat))
    (stl : String → Int) (a v : String) (cfg : WhoisCfg) : WhoisCfg :=
  if a = "--mac" then
    match macF v with
    | some m => {cfg with mac := m, globalBroadcast := false}
    | none => cfg
  else if a = "--dnet" then
    let d := stl v
    {cfg with
      dnet := d,
      globalBroadcast :=
        if 0 ≤ d ∧ d ≤ (BACNET_BROADCAST_NETWORK : Int) then false
        else cfg.globalBroadcast}
  else if a = "--dadr" then
    match macF v with
    | some m => {cfg with adr := m, globalBroadcast := false}
    | none => cfg
  else if a = "--retry" then
    {cfg with retry := (stl v).toNat}
  else if a = "--timeout" then
    {cfg with timeoutMs := stl v}
  else
    {cfg with delayMs := stl v}

/-- The whois argument loop (lines 399-496).  The third argument is
`target_args`; a value-taking option as the last argument ends the loop
(the `++argi < argc` guard fails). -/
def whoisParseLoop (macF : String → Option (List Nat))
    (stl : String → Int) :
    List String → WhoisCfg → Nat → WhoisParse
  | [], cfg, _ => .ok cfg
  | a :: rest, cfg, targs =>
    if a = "--help" then .helpExit
    else if a = "--version" then .versionExit
    else if whoisTakesValue a then
      match rest with
      | [] => .ok cfg
      | v :: rest2 =>
        whoisParseLoop macF stl rest2 (whoisApplyOption macF stl a v cfg)
          targs
    else if a = "--repeat" then
      whoisParseLoop macF stl rest {cfg with repeatF := true} targs
    else if targs = 0 then
      whoisParseLoop macF stl rest
        {cfg with instMin := toInt32 (stl a), instMax := toInt32 (stl a)} 1
    else if targs = 1 then
      whoisParseLoop macF stl rest {cfg with instMax := toInt32 (stl a)} 2
    else .usageExit

/-- Count of positional (non-option) arguments a whois command line
carries, mirroring the loop's consumption of option values and stopping at
`--help`/`--version` (which end the program before later arguments are
looked at). -/
def whoisPositionals : List String → Nat
  | [] => 0
  | a :: rest =>
    if a = "--help" ∨ a = "--version" then 0
    else if whoisTakesValue a then
      match rest with
      | [] => 0
      | _ :: rest2 => whoisPositionals rest2
    else if a = "--repeat" then whoisPositionals rest
    else whoisPositionals rest + 1

/-- The destination the whois program will use for a given command line:
`none` when the program exits during parsing. -/
def whoisDestOf (macF : String → Option (List Nat)) (stl : String → Int)
    (args : List String) : Option Dest :=
  match whoisParseLoop macF stl args whoisCfg0 0 with
  | .ok cfg => some (whoisResolve cfg.globalBroadcast cfg.mac cfg.adr cfg.dnet)
  | _ => none

/-- The iam configuration accumulated by the argument loop
(iam/main.c lines 35-38 and 148-160). -/
structure IamCfg where
  devId : Nat
  vendorId : Nat
  maxApdu : Nat
  seg : Int
  mac : List Nat
  adr : List Nat
  dnet : Int
  repeatF : Bool
  retry : Nat
  delayMs : Int
  specific : Bool
 deriving DecidableEq

/-- Initial values of the iam globals and locals (device id
`BACNET_MAX_INSTANCE`, vendor `BACNET_VENDOR_ID` = 260, `MAX_APDU` left
abstract as 1476, segmentation `SEGMENTATION_NONE` = 3). -/
def iamCfg0 : IamCfg :=
  ⟨4194303, 260, 1476, 3, [], [], -1, false, 0, 100, false⟩

/-- How the iam argument loop leaves the program. -/
inductive IamParse where
  | helpExit
  | versionExit
  | usageExit
  | ok (cfg : IamCfg)
 deriving DecidableEq

/-- The iam options that consume the following argument as their value
(iam has no `--timeout`). -/
def iamTakesValue (a : String) : Bool :=
  decide (a = "--mac" ∨ a = "--dnet" ∨ a = "--dadr" ∨ a = "--retry" ∨
    a = "--delay")

/-- Effect of one iam value-taking option (iam/main.c lines 186-243). -/
def iamApplyOption (macF : String → Option (List Nat))
    (stl : String → Int) (a v : String) (cfg : IamCfg) : IamCfg :=
  if a = "--mac" then
    match macF v with
    | some m => {cfg with mac := m, specific := true}
    | none => cfg
  else if a = "--dnet" then
    let d := stl v
    {cfg with
      dnet := d,
      specific :=
        if 0 ≤ d ∧ d ≤ (BACNET_BROADCAST_NETWORK : Int) then true
        else cfg.specific}
  else if a = "--dadr" then
    match macF v with
    | some m => {cfg with adr := m, specific := true}
    | none => cfg
  else if a = "--retry" then
    {cfg with retry := (stl v).toNat}
  else
    {cfg with delayMs := stl v}

/-- The iam argument loop (iam/main.c lines 165-278): up to four
positionals (device id into `uint32_t`, vendor id into `uint16_t`, max-apdu
into `unsigned int`, segmentation into `int`), a fifth is a usage error. -/
def iamParseLoop (macF : String → Option (List Nat))
    (stl : String → Int) :
    List String → IamCfg → Nat → IamParse
  | [], cfg, _ => .ok cfg
  | a :: rest, cfg, targs =>
    if a = "--help" then .helpExit
    else if a = "--version" then .versionExit
    else if iamTakesValue a then
      match rest with
      | [] => .ok cfg
      | v :: rest2 =>
        iamParseLoop macF stl rest2 (iamApplyOption macF stl a v cfg) targs
    else if a = "--repeat" then
      iamParseLoop macF stl rest {cfg with repeatF := true} targs
    else if targs = 0 then
      iamParseLoop macF stl rest
        {cfg with devId := ((stl a) % 2 ^ 32).toNat} 1
    else if targs = 1 then
      iamParseLoop macF stl rest
        {cfg with vendorId := ((stl a) % 2 ^ 16).toNat} 2
    else if targs = 2 then
      iamParseLoop macF stl rest
        {cfg with maxApdu := ((stl a) % 2 ^ 32).toNat} 3
    else if targs = 3 then
      iamParseLoop macF stl rest {cfg with seg := toInt32 (stl a)} 4
    else .usageExit

/-- Count of positional arguments of an iam command line (same counting
convention as `whoisPositionals`). -/
def iamPositionals : List String → Nat
  | [] => 0
  | a :: rest =>
    if a = "--help" ∨ a = "--version" then 0
    else if iamTakesValue a then
      match rest with
      | [] => 0
      | _ :: rest2 => iamPositionals rest2
    else if a = "--repeat" then iamPositionals rest
    else iamPositionals rest + 1

/-- Modelled from libc: `strtol` restricted to optionally signed decimal
input, enough to instantiate the parser parameter on the concrete command
lines used in witnesses. -/
def digitsToNat : List Char → Nat → Nat
  | [], acc => acc
  | c :: rest, acc =>
    if c.isDigit then digitsToNat rest (acc * 10 + (c.toNat - 48)) else acc

/-- Modelled from libc: see `digitsToNat`. -/
def strtolModel (s : String) : Int :=
  match s.data with
  | '-' :: rest => -(digitsToNat rest 0 : Int)
  | l => (digitsToNat l 0 : Int)

/-- A `bacnet_address_mac_from_ascii` instance that accepts nothing, for
concrete runs that pass no MAC hints. -/
def macNone (_s : String) : Option (List Nat) :=
  none

/-! ### The discovery loops (whois/main.c lines 574-622, iam/main.c lines
341-370)

`datalink_receive` and the `npdu_handler`/APDU dispatch path are external.
Each loop iteration is driven by one oracle record: what the bounded
receive produced and which software timers `mstimer_expired` reports as
expired on that iteration. -/

/-- Modelled from the spec: the outcome of one `datalink_receive` plus
`npdu_handler` dispatch, which is external to `src/`.  A zero-length
receive skips dispatch entirely; a decodable I-Am frame reaches
`my_i_am_handler` and thus `address_table_add`; a malformed frame is
dropped by the decoder; an abort or reject frame reaches
`MyAbortHandler`/`MyRejectHandler`, which set `Error_Detected`. -/
inductive RxEvent where
  | timeout
  | iamFrame (device_id max_apdu : Nat) (src : BacAddr)
  | malformed
  | abortOrReject
 deriving DecidableEq

/-- Oracle record for one whois loop iteration: the receive outcome and
the two `mstimer_expired` polls. -/
structure IterInput where
  event : RxEvent
  dlExpired : Bool
  apduExpired : Bool
 deriving DecidableEq

/-- State of the whois loop: `Error_Detected`, `repeat_forever`, the
(clamped, hence natural) `retry_count`, plus counters of the
`Send_WhoIs_To_Network` and `datalink_receive` calls made so far, and the
roster. -/
structure WhoisLoopSt where
  roster : List AddressEntry
  error : Bool
  repeatF : Bool
  retry : Nat
  sends : Nat
  recvs : Nat
 deriving DecidableEq

/-- Effect of the dispatched frame on the whois state (see `RxEvent`). -/
def whoisDispatch (s : WhoisLoopSt) : RxEvent → WhoisLoopSt
  | .timeout => s
  | .malformed => s
  | .iamFrame id apdu src =>
    {s with roster := address_table_add s.roster id apdu src}
  | .abortOrReject => {s with error := true}

/-- One iteration of the whois `for (;;)` loop (lines 581-619): receive,
dispatch, error check, datalink maintenance (no modelled state), then the
APDU timer: on expiry either resend (decrementing a positive retry count)
or leave the loop.  Returns the new state and whether the loop broke. -/
def whoisStep (s : WhoisLoopSt) (i : IterInput) : WhoisLoopSt × Bool :=
  let s1 := whoisDispatch {s with recvs := s.recvs + 1} i.event
  if s1.error then (s1, true)
  else if i.apduExpired then
    if s1.repeatF ∨ s1.retry ≠ 0 then
      ({s1 with sends := s1.sends + 1, retry := s1.retry - 1}, false)
    else (s1, true)
  else (s1, false)

/-- Run the whois loop over a finite oracle trace.  The boolean is `true`
when the loop broke within the trace; `false` means the trace ran out with
the loop still running. -/
def whoisRunLoop : WhoisLoopSt → List IterInput → WhoisLoopSt × Bool
  | s, [] => (s, false)
  | s, i :: rest =>
    match whoisStep s i with
    | (s2, true) => (s2, true)
    | (s2, false) => whoisRunLoop s2 rest

/-- State right after the code preceding the loop: the unconditional
initial `Send_WhoIs_To_Network` (line 574) followed by the guarded
decrement of `retry_count` (lines 576-579). -/
def whoisLoopInit (retry : Nat) (repeatF : Bool) : WhoisLoopSt :=
  ⟨[], false, repeatF, retry - 1, 1, 0⟩

/-- Everything the whois process shows on exit. -/
structure WhoisOutcome where
  exitCode : Nat
  usagePrinted : Bool
  sends : Nat
  recvs : Nat
  report : Option CacheReport
 deriving DecidableEq

/-- What runs after the whois loop breaks (lines 620-622):
`print_address_cache` and `return 0`. -/
def whoisFinish (s : WhoisLoopSt) : WhoisOutcome :=
  ⟨0, false, s.sends, s.recvs, some (print_address_cache s.roster)⟩

def BACNET_MAX_INSTANCE : Nat := 4194303

/-- The whole whois `main`: parse, instance-range checks (lines 547-560,
both before any datalink initialisation), then the loop and the final
report. -/
def whoisMain (macF : String → Option (List Nat)) (stl : String → Int)
    (args : List String) (inputs : List IterInput) : WhoisOutcome :=
  match whoisParseLoop macF stl args whoisCfg0 0 with
  | .helpExit => ⟨0, true, 0, 0, none⟩
  | .versionExit => ⟨0, false, 0, 0, none⟩
  | .usageExit => ⟨1, true, 0, 0, none⟩
  | .ok cfg =>
    if cfg.instMin > (BACNET_MAX_INSTANCE : Int) then ⟨1, false, 0, 0, none⟩
    else if cfg.instMax > (BACNET_MAX_INSTANCE : Int) then
      ⟨1, false, 0, 0, none⟩
    else
      whoisFinish (whoisRunLoop (whoisLoopInit cfg.retry cfg.repeatF)
        inputs).1

/-- State of the iam loop: `Error_Detected`, `repeat_forever`,
`retry_count`, and counters of `Send_I_Am_To_Network` and
`datalink_receive` calls. -/
structure IamSt where
  error : Bool
  repeatF : Bool
  retry : Nat
  sends : Nat
  recvs : Nat
 deriving DecidableEq

/-- Modelled from the spec: effect of the dispatched frame on the iam
state.  Only abort/reject matter; an I-Am reaching `handler_i_am_add`
feeds the library's address-binding cache, which this program never
reports. -/
def iamDispatch (s : IamSt) : RxEvent → IamSt
  | .abortOrReject => {s with error := true}
  | _ => s

/-- The receive half of the iam do-while body (iam/main.c lines 347-367)
followed, when the loop continues, by the next iteration's send.  The
`while` condition and the inner `if` condition read the same unchanged
`repeat_forever`/`retry_count`, so the "continue" branch merges them: it
decrements a positive retry count, and if the condition still holds it
performs the next `Send_I_Am_To_Network` and waits for the next event. -/
def iamAwait : IamSt → List RxEvent → IamSt × Bool
  | s, [] => (s, false)
  | s, e :: rest =>
    let s2 := iamDispatch {s with recvs := s.recvs + 1} e
    if s2.error then (s2, true)
    else
      let s3 := {s2 with retry := s2.retry - 1}
      if s3.repeatF ∨ s3.retry ≠ 0 then
        iamAwait {s3 with sends := s3.sends + 1} rest
      else (s3, true)

/-- The whole iam do-while loop (lines 341-368): the first send is
unconditional; if neither `repeat_forever` nor retries remain the loop
exits right after it, otherwise the loop waits on the oracle trace. -/
def iamRunFull (s : IamSt) (evs : List RxEvent) : IamSt × Bool :=
  let s1 := {s with sends := s.sends + 1}
  if s1.repeatF ∨ s1.retry ≠ 0 then iamAwait s1 evs else (s1, true)

/-- State before the iam loop. -/
def iamInit (repeatF : Bool) (retry : Nat) : IamSt :=
  ⟨false, repeatF, retry, 0, 0⟩

/-- Everything the iam process shows on exit. -/
structure IamOutcome where
  exitCode : Nat
  usagePrinted : Bool
  sends : Nat
  recvs : Nat
 deriving DecidableEq

/-- After the iam loop exits, `main` returns 0 (line 370). -/
def iamFinish (s : IamSt) : IamOutcome :=
  ⟨0, false, s.sends, s.recvs⟩

/-- The whole iam `main`: parse, then the loop. -/
def iamMain (macF : String → Option (List Nat)) (stl : String → Int)
    (args : List String) (evs : List RxEvent) : IamOutcome :=
  match iamParseLoop macF stl args iamCfg0 0 with
  | .helpExit => ⟨0, true, 0, 0⟩
  | .versionExit => ⟨0, false, 0, 0⟩
  | .usageExit => ⟨1, true, 0, 0⟩
  | .ok cfg =>
    iamFinish (iamRunFull (iamInit cfg.repeatF cfg.retry) evs).1

/-! ### Claims about the response collector -/

/-- C2: for every roster in which some entry carries the given identity id
under a different source address and the exact (id, address) pair itself is
not yet recorded, `address_table_add` flags every same-id entry as
duplicate and appends the new entry — already flagged — at the tail; no
entry is merged, removed, or reordered. -/
theorem c2_duplicate_marks_group (t : List AddressEntry) (id apdu : Nat)
    (src : BacAddr)
    (hnew : ∀ e ∈ t, ¬(e.device_id = id ∧ e.address = src))
    (hdup : ∃ e ∈ t, e.device_id = id ∧ e.address ≠ src) :
    address_table_add t id apdu src =
      t.map (flag_same_id id) ++ [⟨true, id, apdu, src⟩] := by
  rw [address_table_add, address_table_scan_no_exact id apdu src t false hnew]
  obtain ⟨e, he, heid, -⟩ := hdup
  have hany : t.any (fun e => decide (e.device_id = id)) = true :=
    List.any_eq_true.mpr ⟨e, he, by simp [heid]⟩
  rw [hany]
  simp

theorem c2_duplicate_marks_group_witness :
    (∀ e ∈ [(⟨false, 100, 50, ⟨0, [10], []⟩⟩ : AddressEntry)],
      ¬(e.device_id = 100 ∧ e.address = ⟨0, [11], []⟩)) ∧
    (∃ e ∈ [(⟨false, 100, 50, ⟨0, [10], []⟩⟩ : AddressEntry)],
      e.device_id = 100 ∧ e.address ≠ ⟨0, [11], []⟩) ∧
    address_table_add [⟨false, 100, 50, ⟨0, [10], []⟩⟩] 100 60 ⟨0, [11], []⟩ =
      [⟨true, 100, 50, ⟨0, [10], []⟩⟩, ⟨true, 100, 60, ⟨0, [11], []⟩⟩] :=
  ⟨by decide, by decide,
    (c2_duplicate_marks_group [⟨false, 100, 50, ⟨0, [10], []⟩⟩] 100 60
      ⟨0, [11], []⟩ (by decide) (by decide)).trans (by decide)⟩

/-- C3: `address_table_add` is idempotent on exact pairs: on every roster
the program can have built, recording an (id, address) pair that is
already present leaves the table completely unchanged. -/
theorem c3_record_idempotent (calls : List RecCall) (id apdu : Nat)
    (src : BacAddr)
    (h : ∃ e ∈ rosterOf calls, e.device_id = id ∧ e.address = src) :
    address_table_add (rosterOf calls) id apdu src = rosterOf calls := by
  rw [address_table_add]
  exact address_table_scan_exact id apdu src (rosterOf calls)
    (rosterOf_pairwise calls) h false

theorem c3_record_idempotent_witness :
    (∃ e ∈ rosterOf [⟨100, 50, ⟨0, [10], []⟩⟩],
      e.device_id = 100 ∧ e.address = ⟨0, [10], []⟩) ∧
    address_table_add (rosterOf [⟨100, 50, ⟨0, [10], []⟩⟩]) 100 50
      ⟨0, [10], []⟩ = rosterOf [⟨100, 50, ⟨0, [10], []⟩⟩] ∧
    rosterOf [⟨100, 50, ⟨0, [10], []⟩⟩, ⟨100, 50, ⟨0, [10], []⟩⟩] =
      [⟨false, 100, 50, ⟨0, [10], []⟩⟩] :=
  ⟨by decide,
    c3_record_idempotent [⟨100, 50, ⟨0, [10], []⟩⟩] 100 50 ⟨0, [10], []⟩
      (by decide),
    by decide⟩

/-- Closed form of the `print_address_cache` traversal. -/
theorem print_address_cache_go_spec (t : List AddressEntry) :
    ∀ (rows : List RosterRow) (total dups : Nat),
    print_address_cache_go t rows total dups =
      ⟨rows.reverse ++ t.map rowOf, total + t.length,
        dups + t.countP (fun e => e.flags)⟩ := by
  induction t with
  | nil => intro rows total dups; simp [print_address_cache_go]
  | cons e rest ih =>
    intro rows total dups
    rw [print_address_cache_go, ih]
    cases hf : e.flags <;>
      simp [List.countP_cons, hf] <;> omega

/-- C7: for every sequence of record calls, the report prints one row per
roster entry in insertion order, its total count is the roster length, and
its duplicate count is the number of entries whose duplicate flag is
set. -/
theorem c7_report_counts (calls : List RecCall) :
    (print_address_cache (rosterOf calls)).rows =
      (rosterOf calls).map rowOf ∧
    (print_address_cache (rosterOf calls)).total =
      (rosterOf calls).length ∧
    (print_address_cache (rosterOf calls)).dups =
      (rosterOf calls).countP (fun e => e.flags) := by
  rw [print_address_cache, print_address_cache_go_spec]
  simp

/-! ### Claims about destination resolution -/

/-- C4: resolution never fails and lands in one of the four spec cases in
priority order (the whois pipeline refines the spec's policy, with an
out-of-range network number treated as absent), and the command line
`--dnet 70000` with no MAC hints resolves to the broadcast network number
with MAC and sub-address unset. -/
theorem c4_resolution_cases :
    (∀ (mac adr : List Nat) (dnet : Int),
      whoisResolve (whoisGlobalBroadcast mac adr dnet) mac adr dnet =
        resolveSpec mac adr dnet) ∧
    whoisDestOf macNone strtolModel ["--dnet", "70000"] =
      some ⟨BACNET_BROADCAST_NETWORK, [], []⟩ := by
  constructor
  · intro mac adr dnet
    by_cases hm : mac = [] <;> by_cases ha : adr = [] <;>
      by_cases hd : 0 ≤ dnet ∧ dnet ≤ (BACNET_BROADCAST_NETWORK : Int) <;>
      simp [whoisResolve, whoisGlobalBroadcast, destFromHints, resolveSpec,
        broadcastDest, hm, ha, hd]
  · decide

/-- C10: a `--dadr` hint alone counts as a specific target in both
programs (the broadcast default branch is left behind), yet the supplied
remote MAC is ignored: the destination carries no MAC and no sub-address,
and its network number is the `--dnet` value when in range, else the
broadcast network number. -/
theorem c10_dadr_only_ignored (adr : List Nat) (dnet : Int)
    (h : adr ≠ []) :
    whoisGlobalBroadcast [] adr dnet = false ∧
    whoisResolve (whoisGlobalBroadcast [] adr dnet) [] adr dnet =
      ⟨if 0 ≤ dnet ∧ dnet ≤ (BACNET_BROADCAST_NETWORK : Int) then dnet.toNat
        else BACNET_BROADCAST_NETWORK, [], []⟩ ∧
    iamResolve true [] adr dnet =
      ⟨if 0 ≤ dnet ∧ dnet ≤ (BACNET_BROADCAST_NETWORK : Int) then dnet.toNat
        else BACNET_BROADCAST_NETWORK, [], []⟩ := by
  refine ⟨?_, ?_, ?_⟩ <;>
    simp [whoisGlobalBroadcast, whoisResolve, iamResolve, destFromHints, h]

theorem c10_dadr_only_ignored_witness :
    ([5] : List Nat) ≠ [] ∧
    (whoisGlobalBroadcast [] [5] (-1) = false ∧
     whoisResolve (whoisGlobalBroadcast [] [5] (-1)) [] [5] (-1) =
       ⟨if 0 ≤ (-1 : Int) ∧ (-1 : Int) ≤ (BACNET_BROADCAST_NETWORK : Int)
          then (-1 : Int).toNat else BACNET_BROADCAST_NETWORK, [], []⟩ ∧
     iamResolve true [] [5] (-1) =
       ⟨if 0 ≤ (-1 : Int) ∧ (-1 : Int) ≤ (BACNET_BROADCAST_NETWORK : Int)
          then (-1 : Int).toNat else BACNET_BROADCAST_NETWORK, [], []⟩) :=
  ⟨by decide, c10_dadr_only_ignored [5] (-1) (by decide)⟩

/-! ### Claims about the whois loop -/

/-- C6: an iteration whose bounded receive returned zero length neither
mutates the roster nor changes `Error_Detected`; only the timers can have
effects on such an iteration. -/
theorem c6_timeout_no_mutation (s : WhoisLoopSt) (i : IterInput)
    (h : i.event = RxEvent.timeout) :
    (whoisStep s i).1.roster = s.roster ∧
    (whoisStep s i).1.error = s.error := by
  unfold whoisStep
  rw [h]
  by_cases he : s.error <;> by_cases hap : i.apduExpired = true <;>
    by_cases hc : s.repeatF ∨ s.retry ≠ 0 <;>
    simp [whoisDispatch, he, hap, hc]

theorem c6_timeout_no_mutation_witness :
    (⟨RxEvent.timeout, false, false⟩ : IterInput).event =
      RxEvent.timeout ∧
    ((whoisStep ⟨[], false, false, 0, 1, 0⟩
        ⟨RxEvent.timeout, false, false⟩).1.roster =
      ([] : List AddressEntry) ∧
     (whoisStep ⟨[], false, false, 0, 1, 0⟩
        ⟨RxEvent.timeout, false, false⟩).1.error = false) :=
  ⟨rfl, c6_timeout_no_mutation ⟨[], false, false, 0, 1, 0⟩
    ⟨RxEvent.timeout, false, false⟩ rfl⟩

/-- Running the loop over a longer trace continues from the suspended
state. -/
theorem whoisRunLoop_append (pre : List IterInput) :
    ∀ (s s1 : WhoisLoopSt) (l2 : List IterInput),
    whoisRunLoop s pre = (s1, false) →
    whoisRunLoop s (pre ++ l2) = whoisRunLoop s1 l2 := by
  induction pre with
  | nil =>
    intro s s1 l2 h
    simp only [whoisRunLoop, Prod.mk.injEq] at h
    rw [List.nil_append, h.1]
  | cons i pre ih =>
    intro s s1 l2 h
    rcases hstep : whoisStep s i with ⟨s2, b⟩
    cases b
    · rw [whoisRunLoop, hstep] at h
      rw [List.cons_append, whoisRunLoop, hstep]
      exact ih s2 s1 l2 h
    · rw [whoisRunLoop, hstep] at h
      simp at h

/-- On an all-timeout trace without repeat mode, the loop resends once per
remaining retry and breaks on the first expiry after retries run out,
leaving roster and error flag untouched. -/
theorem whois_timeout_drain :
    ∀ (inputs : List IterInput) (s : WhoisLoopSt),
    s.error = false → s.repeatF = false →
    (∀ i ∈ inputs, i.event = RxEvent.timeout) →
    s.retry + 1 ≤ inputs.countP (fun i => i.apduExpired) →
    (whoisRunLoop s inputs).2 = true ∧
    (whoisRunLoop s inputs).1.sends = s.sends + s.retry ∧
    (whoisRunLoop s inputs).1.error = false ∧
    (whoisRunLoop s inputs).1.roster = s.roster := by
  intro inputs
  induction inputs with
  | nil =>
    intro s _ _ _ hcount
    simp [List.countP_nil] at hcount
  | cons i rest ih =>
    intro s herr hrep hto hcount
    have hev : i.event = RxEvent.timeout := hto i (by simp)
    have hto2 : ∀ j ∈ rest, j.event = RxEvent.timeout :=
      fun j hj => hto j (by simp [hj])
    by_cases hap : i.apduExpired = true
    · by_cases hr : s.retry = 0
      · have hstep : whoisStep s i = ({s with recvs := s.recvs + 1}, true) := by
          simp [whoisStep, whoisDispatch, hev, herr, hrep, hap, hr]
        rw [whoisRunLoop, hstep]
        simp [herr, hr]
      · have hstep : whoisStep s i =
            ({s with
              recvs := s.recvs + 1,
              sends := s.sends + 1,
              retry := s.retry - 1}, false) := by
          simp [whoisStep, whoisDispatch, hev, herr, hap, hr]
        rw [whoisRunLoop, hstep]
        have hcount2 : (s.retry - 1) + 1 ≤
            rest.countP (fun i => i.apduExpired) := by
          have hcc : (i :: rest).countP (fun i => i.apduExpired) =
              rest.countP (fun i => i.apduExpired) + 1 := by
            simp [List.countP_cons, hap]
          omega
        have hrec := ih {s with
            recvs := s.recvs + 1,
            sends := s.sends + 1,
            retry := s.retry - 1} herr hrep hto2 hcount2
        refine ⟨hrec.1, ?_, hrec.2.2.1, hrec.2.2.2⟩
        rw [hrec.2.1]
        show s.sends + 1 + (s.retry - 1) = s.sends + s.retry
        omega
    · have hstep : whoisStep s i = ({s with recvs := s.recvs + 1}, false) := by
        simp [whoisStep, whoisDispatch, hev, herr, hap]
      rw [whoisRunLoop, hstep]
      have hcount2 : s.retry + 1 ≤ rest.countP (fun i => i.apduExpired) := by
        have hcc : (i :: rest).countP (fun i => i.apduExpired) =
            rest.countP (fun i => i.apduExpired) := by
          simp [List.countP_cons, hap]
        omega
      exact ih {s with recvs := s.recvs + 1} herr hrep hto2 hcount2

/-- The oracle trace of the run refuting C1 as stated: responses never
arrive and the request timer expires on both iterations. -/
def c1Trace : List IterInput :=
  [⟨RxEvent.timeout, false, true⟩, ⟨RxEvent.timeout, false, true⟩]

/-- C1 as stated is false: started with `retry_count = 2` and
`repeat_forever = false`, with every receive empty and no errors, the loop
terminates after exactly 2 calls to `Send_WhoIs_To_Network`, not 3 — the
unconditional initial send is followed by `retry_count--`, so only one
resend remains. -/
theorem c1_counterexample_two_sends :
    whoisRunLoop (whoisLoopInit 2 false) c1Trace =
      (⟨[], false, false, 0, 2, 2⟩, true) ∧
    ¬((whoisRunLoop (whoisLoopInit 2 false) c1Trace).1.sends = 3) := by
  decide

/-- C1 (amended): in query mode with `retry_count = 2`,
`repeat_forever = false`, every receive empty and no errors, once the
request timer has expired at least twice the loop has terminated, having
performed exactly 2 calls to `Send_WhoIs_To_Network` (the initial send
consumes one retry; the single remaining retry fires on the first
expiry), with no error and an empty roster. -/
theorem c1_query_retry2_two_sends (inputs : List IterInput)
    (hto : ∀ i ∈ inputs, i.event = RxEvent.timeout)
    (hexp : 2 ≤ inputs.countP (fun i => i.apduExpired)) :
    (whoisRunLoop (whoisLoopInit 2 false) inputs).2 = true ∧
    (whoisRunLoop (whoisLoopInit 2 false) inputs).1.sends = 2 ∧
    (whoisRunLoop (whoisLoopInit 2 false) inputs).1.error = false ∧
    (whoisRunLoop (whoisLoopInit 2 false) inputs).1.roster = [] := by
  exact whois_timeout_drain inputs (whoisLoopInit 2 false) rfl rfl hto hexp

theorem c1_query_retry2_two_sends_witness :
    (∀ i ∈ c1Trace, i.event = RxEvent.timeout) ∧
    2 ≤ c1Trace.countP (fun i => i.apduExpired) ∧
    ((whoisRunLoop (whoisLoopInit 2 false) c1Trace).2 = true ∧
     (whoisRunLoop (whoisLoopInit 2 false) c1Trace).1.sends = 2 ∧
     (whoisRunLoop (whoisLoopInit 2 false) c1Trace).1.error = false ∧
     (whoisRunLoop (whoisLoopInit 2 false) c1Trace).1.roster = []) :=
  ⟨by decide, by decide,
    c1_query_retry2_two_sends c1Trace (by decide) (by decide)⟩

/-- iam analogue of `whoisRunLoop_append`. -/
theorem iamAwait_append (pre : List RxEvent) :
    ∀ (s s1 : IamSt) (l2 : List RxEvent),
    iamAwait s pre = (s1, false) →
    iamAwait s (pre ++ l2) = iamAwait s1 l2 := by
  induction pre with
  | nil =>
    intro s s1 l2 h
    simp only [iamAwait, Prod.mk.injEq] at h
    rw [List.nil_append, h.1]
  | cons e pre ih =>
    intro s s1 l2 h
    rw [iamAwait] at h
    rw [List.cons_append, iamAwait]
    by_cases h2 : (iamDispatch {s with recvs := s.recvs + 1} e).error = true
    · rw [if_pos h2] at h
      simp at h
    · rw [if_neg h2] at h
      rw [if_neg h2]
      by_cases h3 :
          ({iamDispatch {s with recvs := s.recvs + 1} e with
            retry :=
              (iamDispatch {s with recvs := s.recvs + 1} e).retry - 1} :
            IamSt).repeatF = true ∨
          ¬({iamDispatch {s with recvs := s.recvs + 1} e with
            retry :=
              (iamDispatch {s with recvs := s.recvs + 1} e).retry - 1} :
            IamSt).retry = 0
      · rw [if_pos h3] at h
        rw [if_pos h3]
        exact ih _ s1 l2 h
      · rw [if_neg h3] at h
        simp at h

/-- With `repeat_forever` set and no abort/reject arriving, the iam loop
keeps going: one receive and one further send per event, the retry count
draining toward zero. -/
theorem iamAwait_no_abort (evs : List RxEvent) :
    ∀ (s : IamSt), s.error = false → s.repeatF = true →
    (∀ e ∈ evs, e ≠ RxEvent.abortOrReject) →
    iamAwait s evs =
      ({s with
        retry := s.retry - evs.length,
        sends := s.sends + evs.length,
        recvs := s.recvs + evs.length}, false) := by
  induction evs with
  | nil =>
    intro s _ _ _
    simp [iamAwait]
  | cons e rest ih =>
    intro s herr hrep hna
    have hne : e ≠ RxEvent.abortOrReject := hna e (by simp)
    have hdis : iamDispatch {s with recvs := s.recvs + 1} e =
        {s with recvs := s.recvs + 1} := by
      cases e with
      | timeout => rfl
      | iamFrame a b c => rfl
      | malformed => rfl
      | abortOrReject => exact absurd rfl hne
    rw [iamAwait, hdis]
    rw [if_neg (by simp [herr]), if_pos (by simp [hrep])]
    rw [ih {s with
        recvs := s.recvs + 1,
        retry := s.retry - 1,
        sends := s.sends + 1} herr hrep (fun x hx => hna x (by simp [hx]))]
    have h1 : s.retry - 1 - rest.length = s.retry - (rest.length + 1) := by
      omega
    have h2 : s.sends + 1 + rest.length = s.sends + (rest.length + 1) := by
      omega
    have h3 : s.recvs + 1 + rest.length = s.recvs + (rest.length + 1) := by
      omega
    simp [h1, h2, h3]

/-- C8: in announce mode with `repeat_forever` set the loop never
terminates on its own — over any abort-free trace it is still running,
having sent once initially and once more per poll interval — and as soon
as an abort/reject is dispatched it terminates within that same
iteration, before any further send. -/
theorem c8_announce_repeat :
    (∀ (retry : Nat) (evs : List RxEvent),
      (∀ e ∈ evs, e ≠ RxEvent.abortOrReject) →
      iamRunFull (iamInit true retry) evs =
        (⟨false, true, retry - evs.length, evs.length + 1, evs.length⟩,
          false)) ∧
    (∀ (retry : Nat) (pre rest : List RxEvent) (s1 : IamSt),
      iamRunFull (iamInit true retry) pre = (s1, false) →
      iamRunFull (iamInit true retry) (pre ++ RxEvent.abortOrReject :: rest) =
        ({s1 with error := true, recvs := s1.recvs + 1}, true)) := by
  constructor
  · intro retry evs hna
    rw [iamRunFull]
    rw [if_pos (by simp [iamInit])]
    show iamAwait ⟨false, true, retry, 1, 0⟩ evs = _
    rw [iamAwait_no_abort evs ⟨false, true, retry, 1, 0⟩ rfl rfl hna]
    rw [Nat.add_comm 1 evs.length, Nat.zero_add]
  · intro retry pre rest s1 h
    rw [iamRunFull] at h
    rw [if_pos (by simp [iamInit])] at h
    rw [iamRunFull]
    rw [if_pos (by simp [iamInit])]
    rw [iamAwait_append pre _ s1 _ h]
    rw [iamAwait]
    have hdis : iamDispatch {s1 with recvs := s1.recvs + 1}
        RxEvent.abortOrReject =
        {s1 with recvs := s1.recvs + 1, error := true} := by
      simp [iamDispatch]
    rw [hdis]
    rw [if_pos rfl]

theorem c8_announce_repeat_witness :
    ((∀ e ∈ [RxEvent.timeout], e ≠ RxEvent.abortOrReject) ∧
     iamRunFull (iamInit true 0) [RxEvent.timeout] =
       (⟨false, true, 0, 2, 1⟩, false)) ∧
    (iamRunFull (iamInit true 0) [RxEvent.timeout] =
       ((⟨false, true, 0, 2, 1⟩ : IamSt), false) ∧
     iamRunFull (iamInit true 0)
        ([RxEvent.timeout] ++ RxEvent.abortOrReject :: []) =
       (⟨true, true, 0, 2, 2⟩, true)) :=
  ⟨⟨by decide, c8_announce_repeat.1 0 [RxEvent.timeout] (by decide)⟩,
    ⟨by decide,
      (c8_announce_repeat.2 0 [RxEvent.timeout] [] ⟨false, true, 0, 2, 1⟩
        (by decide)).trans (by decide)⟩⟩

/-- C5: in either mode, an abort/reject reaching the dispatcher while the
loop is still running terminates the loop at that very iteration, with no
further send; the whois program then still prints the roster collected so
far, in full, and both programs exit with code 0. -/
theorem c5_abort_graceful :
    (∀ (s s1 : WhoisLoopSt) (pre rest : List IterInput) (i : IterInput),
      whoisRunLoop s pre = (s1, false) → i.event = RxEvent.abortOrReject →
      whoisRunLoop s (pre ++ i :: rest) =
        ({s1 with error := true, recvs := s1.recvs + 1}, true) ∧
      whoisFinish {s1 with error := true, recvs := s1.recvs + 1} =
        ⟨0, false, s1.sends, s1.recvs + 1,
          some (print_address_cache s1.roster)⟩) ∧
    (∀ (s0 s1 : IamSt) (pre rest : List RxEvent),
      iamRunFull s0 pre = (s1, false) →
      iamRunFull s0 (pre ++ RxEvent.abortOrReject :: rest) =
        ({s1 with error := true, recvs := s1.recvs + 1}, true) ∧
      iamFinish {s1 with error := true, recvs := s1.recvs + 1} =
        ⟨0, false, s1.sends, s1.recvs + 1⟩) := by
  constructor
  · intro s s1 pre rest i h hev
    constructor
    · rw [whoisRunLoop_append pre s s1 _ h]
      rw [whoisRunLoop]
      have hstep : whoisStep s1 i =
          ({s1 with error := true, recvs := s1.recvs + 1}, true) := by
        rw [whoisStep, hev]
        rw [show whoisDispatch {s1 with recvs := s1.recvs + 1}
            RxEvent.abortOrReject =
            {s1 with error := true, recvs := s1.recvs + 1} from rfl]
        rw [if_pos rfl]
      rw [hstep]
    · rfl
  · intro s0 s1 pre rest h
    constructor
    · by_cases hcond : (({s0 with sends := s0.sends + 1} : IamSt).repeatF ∨
          ({s0 with sends := s0.sends + 1} : IamSt).retry ≠ 0)
      · rw [iamRunFull, if_pos hcond] at h
        rw [iamRunFull, if_pos hcond]
        rw [iamAwait_append pre _ s1 _ h]
        rw [iamAwait]
        rw [show iamDispatch {s1 with recvs := s1.recvs + 1}
            RxEvent.abortOrReject =
            {s1 with error := true, recvs := s1.recvs + 1} from rfl]
        rw [if_pos rfl]
      · rw [iamRunFull, if_neg hcond] at h
        simp at h
    · rfl

/-- A third positional argument always drives the whois argument loop into
the usage exit, whatever options surround it. -/
theorem whoisParseLoop_excess (macF : String → Option (List Nat))
    (stl : String → Int) :
    ∀ (args : List String) (cfg : WhoisCfg) (targs : Nat),
    targs ≤ 2 → 2 < targs + whoisPositionals args →
    whoisParseLoop macF stl args cfg targs = .usageExit := by
  have H : ∀ (n : Nat) (args : List String), args.length ≤ n →
      ∀ (cfg : WhoisCfg) (targs : Nat),
      targs ≤ 2 → 2 < targs + whoisPositionals args →
      whoisParseLoop macF stl args cfg targs = .usageExit := by
    intro n
    induction n with
    | zero =>
      intro args hlen cfg targs h1 h2
      rw [List.length_eq_zero.mp (Nat.le_zero.mp hlen)] at h2
      simp [whoisPositionals] at h2
      omega
    | succ n ihn =>
      intro args hlen cfg targs h1 h2
      match args with
      | [] =>
        simp [whoisPositionals] at h2
        omega
      | a :: rest =>
        rw [List.length_cons] at hlen
        rw [whoisPositionals.eq_def] at h2
        dsimp only at h2
        by_cases hh : a = "--help" ∨ a = "--version"
        · rw [if_pos hh] at h2
          omega
        · rw [if_neg hh] at h2
          have hh1 : ¬(a = "--help") := fun hc => hh (Or.inl hc)
          have hh2 : ¬(a = "--version") := fun hc => hh (Or.inr hc)
          rw [whoisParseLoop.eq_def]
          dsimp only
          rw [if_neg hh1, if_neg hh2]
          by_cases hv : whoisTakesValue a = true
          · rw [if_pos hv]
            rw [if_pos hv] at h2
            match rest with
            | [] =>
              dsimp only at h2
              omega
            | v :: rest2 =>
              dsimp only at h2
              rw [List.length_cons] at hlen
              exact ihn rest2 (by omega) _ targs h1 h2
          · rw [if_neg hv]
            rw [if_neg hv] at h2
            by_cases hr : a = "--repeat"
            · rw [if_pos hr]
              rw [if_pos hr] at h2
              exact ihn rest (by omega) _ targs h1 h2
            · rw [if_neg hr]
              rw [if_neg hr] at h2
              by_cases ht0 : targs = 0
              · rw [if_pos ht0]
                exact ihn rest (by omega) _ 1 (by omega) (by omega)
              · rw [if_neg ht0]
                by_cases ht1 : targs = 1
                · rw [if_pos ht1]
                  exact ihn rest (by omega) _ 2 (by omega) (by omega)
                · rw [if_neg ht1]
  intro args
  exact H args.length args (Nat.le_refl _)

/-- A fifth positional argument always drives the iam argument loop into
the usage exit. -/
theorem iamParseLoop_excess (macF : String → Option (List Nat))
    (stl : String → Int) :
    ∀ (args : List String) (cfg : IamCfg) (targs : Nat),
    targs ≤ 4 → 4 < targs + iamPositionals args →
    iamParseLoop macF stl args cfg targs = .usageExit := by
  have H : ∀ (n : Nat) (args : List String), args.length ≤ n →
      ∀ (cfg : IamCfg) (targs : Nat),
      targs ≤ 4 → 4 < targs + iamPositionals args →
      iamParseLoop macF stl args cfg targs = .usageExit := by
    intro n
    induction n with
    | zero =>
      intro args hlen cfg targs h1 h2
      rw [List.length_eq_zero.mp (Nat.le_zero.mp hlen)] at h2
      simp [iamPositionals] at h2
      omega
    | succ n ihn =>
      intro args hlen cfg targs h1 h2
      match args with
      | [] =>
        simp [iamPositionals] at h2
        omega
      | a :: rest =>
        rw [List.length_cons] at hlen
        rw [iamPositionals.eq_def] at h2
        dsimp only at h2
        by_cases hh : a = "--help" ∨ a = "--version"
        · rw [if_pos hh] at h2
          omega
        · rw [if_neg hh] at h2
          have hh1 : ¬(a = "--help") := fun hc => hh (Or.inl hc)
          have hh2 : ¬(a = "--version") := fun hc => hh (Or.inr hc)
          rw [iamParseLoop.eq_def]
          dsimp only
          rw [if_neg hh1, if_neg hh2]
          by_cases hv : iamTakesValue a = true
          · rw [if_pos hv]
            rw [if_pos hv] at h2
            match rest with
            | [] =>
              dsimp only at h2
              omega
            | v :: rest2 =>
              dsimp only at h2
              rw [List.length_cons] at hlen
              exact ihn rest2 (by omega) _ targs h1 h2
          · rw [if_neg hv]
            rw [if_neg hv] at h2
            by_cases hr : a = "--repeat"
            · rw [if_pos hr]
              rw [if_pos hr] at h2
              exact ihn rest (by omega) _ targs h1 h2
            · rw [if_neg hr]
              rw [if_neg hr] at h2
              by_cases ht0 : targs = 0
              · rw [if_pos ht0]
                exact ihn rest (by omega) _ 1 (by omega) (by omega)
              · rw [if_neg ht0]
                by_cases ht1 : targs = 1
                · rw [if_pos ht1]
                  exact ihn rest (by omega) _ 2 (by omega) (by omega)
                · rw [if_neg ht1]
                  by_cases ht2 : targs = 2
                  · rw [if_pos ht2]
                    exact ihn rest (by omega) _ 3 (by omega) (by omega)
                  · rw [if_neg ht2]
                    by_cases ht3 : targs = 3
                    · rw [if_pos ht3]
                      exact ihn rest (by omega) _ 4 (by omega) (by omega)
                    · rw [if_neg ht3]
  intro args
  exact H args.length args (Nat.le_refl _)

/-- C9: a command line with more positional arguments than the mode
accepts (more than 2 for whois, more than 4 for iam) makes the program
print usage and exit with code 1 before any network activity: no send and
no receive happens, and no roster is reported. -/
theorem c9_excess_args_usage :
    (∀ (macF : String → Option (List Nat)) (stl : String → Int)
      (args : List String) (inputs : List IterInput),
      2 < whoisPositionals args →
      whoisMain macF stl args inputs = ⟨1, true, 0, 0, none⟩) ∧
    (∀ (macF : String → Option (List Nat)) (stl : String → Int)
      (args : List String) (evs : List RxEvent),
      4 < iamPositionals args →
      iamMain macF stl args evs = ⟨1, true, 0, 0⟩) := by
  constructor
  · intro macF stl args inputs h
    have hp : whoisParseLoop macF stl args whoisCfg0 0 = .usageExit :=
      whoisParseLoop_excess macF stl args whoisCfg0 0 (by omega) (by omega)
    rw [whoisMain, hp]
  · intro macF stl args evs h
    have hp : iamParseLoop macF stl args iamCfg0 0 = .usageExit :=
      iamParseLoop_excess macF stl args iamCfg0 0 (by omega) (by omega)
    rw [iamMain, hp]

theorem c9_excess_args_usage_witness :
    (2 < whoisPositionals ["1", "2", "3"] ∧
     whoisMain macNone strtolModel ["1", "2", "3"] [] =
       ⟨1, true, 0, 0, none⟩) ∧
    (4 < iamPositionals ["1", "2", "3", "4", "5"] ∧
     iamMain macNone strtolModel ["1", "2", "3", "4", "5"] [] =
       ⟨1, true, 0, 0⟩) :=
  ⟨⟨by decide,
    c9_excess_args_usage.1 macNone strtolModel ["1", "2", "3"] []
      (by decide)⟩,
   ⟨by decide,
    c9_excess_args_usage.2 macNone strtolModel ["1", "2", "3", "4", "5"] []
      (by decide)⟩⟩

theorem c5_abort_graceful_witness :
    (whoisRunLoop (whoisLoopInit 0 false) [] =
        (whoisLoopInit 0 false, false) ∧
     (⟨RxEvent.abortOrReject, false, false⟩ : IterInput).event =
        RxEvent.abortOrReject ∧
     (whoisRunLoop (whoisLoopInit 0 false)
          ([] ++ ⟨RxEvent.abortOrReject, false, false⟩ :: []) =
        ({whoisLoopInit 0 false with
          error := true,
          recvs := (whoisLoopInit 0 false).recvs + 1}, true) ∧
      whoisFinish {whoisLoopInit 0 false with
          error := true,
          recvs := (whoisLoopInit 0 false).recvs + 1} =
        ⟨0, false, (whoisLoopInit 0 false).sends,
          (whoisLoopInit 0 false).recvs + 1,
          some (print_address_cache (whoisLoopInit 0 false).roster)⟩)) ∧
    (iamRunFull (iamInit true 0) [] = ((⟨false, true, 0, 1, 0⟩ : IamSt),
        false) ∧
     (iamRunFull (iamInit true 0) ([] ++ RxEvent.abortOrReject :: []) =
        ({(⟨false, true, 0, 1, 0⟩ : IamSt) with
          error := true,
          recvs := (⟨false, true, 0, 1, 0⟩ : IamSt).recvs + 1}, true) ∧
      iamFinish {(⟨false, true, 0, 1, 0⟩ : IamSt) with
          error := true,
          recvs := (⟨false, true, 0, 1, 0⟩ : IamSt).recvs + 1} =
        ⟨0, false, (⟨false, true, 0, 1, 0⟩ : IamSt).sends,
          (⟨false, true, 0, 1, 0⟩ : IamSt).recvs + 1⟩)) :=
  ⟨⟨rfl, rfl,
    c5_abort_graceful.1 (whoisLoopInit 0 false) (whoisLoopInit 0 false)
      [] [] ⟨RxEvent.abortOrReject, false, false⟩ rfl rfl⟩,
   ⟨by decide,
    c5_abort_graceful.2 (iamInit true 0) ⟨false, true, 0, 1, 0⟩ [] []
      (by decide)⟩⟩

end BacApp
